import Mathlib

/-!
Verification of the item-CRUD service in `app.js` (an Express application
persisting a flat collection of items in a single JSON file).

The embedding models the JavaScript data and operations shallowly:

* JSON values (the payloads parsed by `express.json()` / `JSON.parse` and
  produced by `res.json` / `JSON.stringify`) are the inductive `JsValue`;
  JSON numbers are modelled as integers, which covers every value the
  routes themselves manipulate (`parseInt` results are integers or NaN).
* The on-disk document `data.json` is modelled by `DiskState` at the level
  of its parsed content: `stored xs` is a readable file whose text
  `JSON.parse`s to the array `xs` (the only shape `writeData` ever writes),
  `absent` is a missing file (`fs.readFile` rejects), `corrupt` is a
  readable file whose text `JSON.parse` rejects, and `readError` is any
  other read failure (e.g. permissions).  `JSON.stringify`/`JSON.parse`
  are platform builtins, assumed mutually inverse on JSON values, so the
  adapter is stated directly on parsed content.
* Each route handler becomes a pure function from its request data and the
  disk state to an HTTP `Response` (plus the new disk state for the
  mutating route).  The unique fallible step, `fs.writeFile`, is given its
  outcome as an explicit `WriteResult` argument, and `writeData`
  propagates failure as `Except.error` exactly as the uncaught JavaScript
  rejection propagates.
-/

/-- A JSON value, as produced by `JSON.parse`.  Object fields are kept in
insertion order (JavaScript enumeration order for the non-numeric keys used
here); a parsed object has pairwise distinct keys.  Numbers are modelled as
integers. -/
inductive JsValue : Type where
  | null : JsValue
  | bool : Bool → JsValue
  | num : Int → JsValue
  | str : String → JsValue
  | arr : List JsValue → JsValue
  | obj : List (String × JsValue) → JsValue


/-- Field lookup in the field list of an object, i.e. JavaScript member access
`o[k]` on a plain parsed object: `some v` when the key is present with
value `v`, `none` when the access yields `undefined`. -/
def lookupField : List (String × JsValue) → String → Option JsValue
  | [], _ => none
  | (k', v) :: rest, k => if k' == k then some v else lookupField rest k

/-- Member access `v[k]` for a modelled JSON value: field lookup on an
object, `undefined` (`none`) otherwise. -/
def getField (v : JsValue) (k : String) : Option JsValue :=
  match v with
  | JsValue.obj fs => lookupField fs k
  | _ => none

/-- JavaScript property assignment `o[k] = v` on the field list of an object: an
existing key is updated in place (keeping its position in enumeration
order), a new key is appended at the end. -/
def setFields (fs : List (String × JsValue)) (k : String) (v : JsValue) :
    List (String × JsValue) :=
  match fs with
  | [] => [(k, v)]
  | (k', v') :: rest =>
      if k' == k then (k, v) :: rest else (k', v') :: setFields rest k v

/-- True for the characters `parseInt` skips before the number (the common
ASCII whitespace and line terminators; exotic Unicode space code points
cannot appear in the inputs considered here and are elided). -/
def isJsSpace (c : Char) : Bool :=
  c == ' ' || c == '\t' || c == '\n' || c == '\r' ||
  c == '\x0b' || c == '\x0c'

/-- The numeric value of a decimal digit character. -/
def decDigitVal (c : Char) : Nat := c.toNat - 48

/-- Whether a character is a hexadecimal digit. -/
def isHexDigit (c : Char) : Bool :=
  c.isDigit || ('a' ≤ c && c ≤ 'f') || ('A' ≤ c && c ≤ 'F')

/-- The numeric value of a hexadecimal digit character. -/
def hexDigitVal (c : Char) : Nat :=
  if c.isDigit then c.toNat - 48
  else if 'a' ≤ c && c ≤ 'f' then c.toNat - 97 + 10
  else c.toNat - 65 + 10

/-- Accumulate a digit list into a natural number in the given base. -/
def digitsVal (base : Nat) (f : Char → Nat) (ds : List Char) : Nat :=
  ds.foldl (fun acc c => acc * base + f c) 0

/-- JavaScript `parseInt(s)` with no radix argument: skip leading
whitespace, read an optional sign, then either a `0x`/`0X`-marked run of
hexadecimal digits or a run of decimal digits (longest such run, ignoring
everything after it).  `none` models the NaN result produced when no digit
is read. -/
def parseIntJs (s : String) : Option Int :=
  let cs := s.toList.dropWhile isJsSpace
  let (sign, cs₁) :=
    match cs with
    | '-' :: rest => ((-1 : Int), rest)
    | '+' :: rest => ((1 : Int), rest)
    | _ => ((1 : Int), cs)
  match cs₁ with
  | '0' :: c :: rest =>
      if c == 'x' || c == 'X' then
        let ds := rest.takeWhile isHexDigit
        if ds.isEmpty then none
        else some (sign * (digitsVal 16 hexDigitVal ds : Nat))
      else
        let ds := cs₁.takeWhile Char.isDigit
        if ds.isEmpty then none
        else some (sign * (digitsVal 10 decDigitVal ds : Nat))
  | _ =>
      let ds := cs₁.takeWhile Char.isDigit
      if ds.isEmpty then none
      else some (sign * (digitsVal 10 decDigitVal ds : Nat))

/-- The on-disk `data.json`, modelled by its parsed content (see the file
header): `stored xs` is a readable document whose text parses to the array
`xs`; the other three constructors are the failure modes of reading it. -/
inductive DiskState : Type where
  | absent : DiskState
  | corrupt : DiskState
  | readError : DiskState
  | stored : List JsValue → DiskState


/-- The function `readData` from `app.js`: read and `JSON.parse` the document, and on
any error (missing file, malformed content, or any other read failure —
the `catch` is indiscriminate) return `[]`. -/
def readData (d : DiskState) : List JsValue :=
  match d with
  | DiskState.stored xs => xs
  | _ => []

/-- Outcome of the underlying `fs.writeFile` call. -/
inductive WriteResult : Type where
  | ok : WriteResult
  | ioError : WriteResult


/-- The function `writeData` from `app.js`: serialize the collection and overwrite the
document in full.  There is no `try`/`catch`, so a failing write propagates
to the caller (`Except.error`); a successful write leaves the document
holding exactly the given collection. -/
def writeData (data : List JsValue) (w : WriteResult) : Except Unit DiskState :=
  match w with
  | WriteResult.ok => Except.ok (DiskState.stored data)
  | WriteResult.ioError => Except.error ()

/-- An HTTP response: status code and JSON body. -/
structure Response : Type where
  status : Nat
  body : JsValue


/-- The 404 body of the get-by-id route. -/
def notFoundBody : JsValue :=
  JsValue.obj [("message", JsValue.str "Item not found")]

/-- The `GET /items` handler: load the collection and return it verbatim
with status 200 (`res.json` defaults to 200). -/
def getItems (d : DiskState) : Response :=
  Response.mk 200 (JsValue.arr (readData d))

/-- The predicate of the `find` in the get-by-id route: JavaScript strict
equality `item.id === id`, where `id` is the number (possibly NaN,
modelled `none`) produced by `parseInt`.  Strict equality of a number with
a value of any other type is false, `undefined` (an absent field) never
equals a number, and NaN equals nothing. -/
def matchesId (pid : Option Int) (item : JsValue) : Bool :=
  match pid, getField item "id" with
  | some n, some (JsValue.num m) => n == m
  | _, _ => false

/-- The `GET /items/:id` handler: `parseInt` the path segment, load the
collection, take the first item whose `id` strictly equals the parsed
number; respond 200 with that item, else 404 with the message body. -/
def getItemById (seg : String) (d : DiskState) : Response :=
  let pid := parseIntJs seg
  let data := readData d
  match data.find? (matchesId pid) with
  | some item => Response.mk 200 item
  | none => Response.mk 404 notFoundBody

/-- The `POST /items` handler.  The request body is the parsed JSON object
delivered by `express.json()` (an Item record, per the API schema), given
as its field list; `freshId` is the token returned by `uuidv4()`; `w` is
the outcome of the underlying file write.  The handler assigns `freshId`
to the `id` field of the body (overwriting any client-supplied `id`), appends
the resulting item to the loaded collection, writes the collection back,
and only then responds 201 with the new item; a write failure propagates
out of the handler before any response is produced. -/
def postItems (body : List (String × JsValue)) (freshId : String)
    (d : DiskState) (w : WriteResult) : Except Unit (DiskState × Response) :=
  let data := readData d
  let newItem := JsValue.obj (setFields body "id" (JsValue.str freshId))
  let data' := data ++ [newItem]
  match writeData data' w with
  | Except.ok d' => Except.ok (d', Response.mk 201 newItem)
  | Except.error e => Except.error e

/-- Modelled from the spec: the HTTP framework's default error responder is
not part of `app.js`; per the spec a storage-write failure "propagates as
an unhandled runtime failure, resulting in a generic server-error response
with no structured error body". -/
def frameworkFailureResponse : Response :=
  Response.mk 500 (JsValue.str "Internal Server Error")

/-- The full create request as seen by the client: the 201 response of the
handler on success, the generic server-error response of the framework when
the uncaught failure escapes the handler. -/
def handlePost (body : List (String × JsValue)) (freshId : String)
    (d : DiskState) (w : WriteResult) : Response :=
  match postItems body freshId d w with
  | Except.ok (_, r) => r
  | Except.error _ => frameworkFailureResponse

/-!
Helper lemmas about field update and the lookup predicate, followed by one
theorem per claim of the specification review (C1 to C10).
-/

/-- Assigning key `k` makes a later lookup of `k` return the assigned
value, whether the key was present before or not. -/
theorem lookupField_setFields_self (fs : List (String × JsValue)) (k : String)
    (v : JsValue) : lookupField (setFields fs k v) k = some v := by
  induction fs with
  | nil => simp [setFields, lookupField]
  | cons p rest ih =>
      obtain ⟨k', v'⟩ := p
      by_cases h : k' = k
      · subst h
        simp [setFields, lookupField]
      · simp [setFields, lookupField, h, ih]

/-- Assigning key `k` leaves the lookup of every other key unchanged. -/
theorem lookupField_setFields_ne (fs : List (String × JsValue)) (k : String)
    (v : JsValue) (k' : String) (h : k' ≠ k) :
    lookupField (setFields fs k v) k' = lookupField fs k' := by
  induction fs with
  | nil => simp [setFields, lookupField, Ne.symm h]
  | cons p rest ih =>
      obtain ⟨k₀, v₀⟩ := p
      by_cases h0 : k₀ = k
      · subst h0
        simp [setFields, lookupField, Ne.symm h]
      · simp [setFields, lookupField, h0, ih]

/-- Inversion for the lookup predicate: a match forces the parse result to
be an actual number and the stored `id` to be that very number. -/
theorem matchesId_eq_true {pid : Option Int} {item : JsValue}
    (h : matchesId pid item = true) :
    ∃ n, pid = some n ∧ getField item "id" = some (JsValue.num n) := by
  unfold matchesId at h
  cases hp : pid with
  | none => rw [hp] at h; cases h
  | some n =>
      cases hg : getField item "id" with
      | none => rw [hp, hg] at h; cases h
      | some v =>
          rw [hp, hg] at h
          cases v with
          | num m =>
              exact ⟨n, rfl, by
                rw [Option.some.injEq, JsValue.num.injEq]
                exact (eq_of_beq h).symm⟩
          | null => cases h
          | bool b => cases h
          | str s => cases h
          | arr xs => cases h
          | obj fs => cases h

/-- An item whose `id` is the string token `"abc"`, i.e. an item with an
identifier of the shape every server-generated identifier has. -/
def itemStrAbc : JsValue :=
  JsValue.obj [("id", JsValue.str "abc"), ("name", JsValue.str "w")]

/-- An item whose stored `id` is the number `5`. -/
def itemNum5 : JsValue :=
  JsValue.obj [("id", JsValue.num 5), ("name", JsValue.str "w")]

/-- First of two items sharing the colliding numeric id `1`. -/
def itemDupA : JsValue :=
  JsValue.obj [("id", JsValue.num 1), ("name", JsValue.str "a")]

/-- Second of two items sharing the colliding numeric id `1`. -/
def itemDupB : JsValue :=
  JsValue.obj [("id", JsValue.num 1), ("name", JsValue.str "b")]

/-- C1: the claim states that a GET of an id present in the collection
returns 200 with that record.  The code evaluates otherwise: the route
applies `parseInt` to the path segment and compares with strict equality,
so for the item whose `id` is the string `"abc"` — present in the
collection, and of the same shape as every identifier the server itself
generates — `GET /items/abc` returns 404, not 200. -/
theorem getById_string_id_present_404 :
    getField itemStrAbc "id" = some (JsValue.str "abc") ∧
    getItemById "abc" (DiskState.stored [itemStrAbc]) = Response.mk 404 notFoundBody ∧
    (404 : Nat) ≠ 200 :=
  ⟨rfl, rfl, by decide⟩

/-- C2: for every Item body POSTed, the echoed 201 item carries the
generated identifier in its `id` field, and (under the freshness of the
generated token, hypothesis `hfresh`) that identifier differs from any id
value the client supplied; the client-supplied `id` is overwritten before
the item is stored and echoed. -/
theorem post_overwrites_client_id (body : List (String × JsValue))
    (freshId : String) (d : DiskState)
    (hfresh : ∀ v, lookupField body "id" = some v → v ≠ JsValue.str freshId) :
    ∃ d' item,
      postItems body freshId d WriteResult.ok = Except.ok (d', Response.mk 201 item) ∧
      getField item "id" = some (JsValue.str freshId) ∧
      (∀ v, lookupField body "id" = some v → getField item "id" ≠ some v) ∧
      readData d' = readData d ++ [item] := by
  refine ⟨_, _, rfl, ?_, ?_, rfl⟩
  · exact lookupField_setFields_self body "id" (JsValue.str freshId)
  · intro v hv
    have hid : getField (JsValue.obj (setFields body "id" (JsValue.str freshId))) "id"
        = some (JsValue.str freshId) :=
      lookupField_setFields_self body "id" (JsValue.str freshId)
    rw [hid]
    intro hc
    exact hfresh v hv (Option.some.inj hc).symm

/-- Witness for C2 at a concrete input: the client supplies
`id = "client-7"`, the server generates `"fresh-1"`, and the echoed item
carries `"fresh-1"`, not `"client-7"`. -/
theorem post_overwrites_client_id_witness :
    ∃ d' item,
      postItems [("id", JsValue.str "client-7"), ("name", JsValue.str "Widget")]
        "fresh-1" DiskState.absent WriteResult.ok = Except.ok (d', Response.mk 201 item) ∧
      getField item "id" = some (JsValue.str "fresh-1") ∧
      getField item "id" ≠ some (JsValue.str "client-7") := by
  obtain ⟨d', item, h1, h2, h3, _⟩ :=
    post_overwrites_client_id
      [("id", JsValue.str "client-7"), ("name", JsValue.str "Widget")]
      "fresh-1" DiskState.absent (by
        intro v hv
        rw [show lookupField [("id", JsValue.str "client-7"), ("name", JsValue.str "Widget")]
              "id" = some (JsValue.str "client-7") from rfl] at hv
        cases Option.some.inj hv
        intro hc
        injection hc with h
        exact absurd h (by decide))
  exact ⟨d', item, h1, h2, h3 (JsValue.str "client-7") rfl⟩

/-- C3: saving a collection and then loading it returns a collection equal
in content and order to the one saved. -/
theorem save_then_load_roundtrip (xs : List JsValue) :
    ∃ d', writeData xs WriteResult.ok = Except.ok d' ∧ readData d' = xs :=
  ⟨DiskState.stored xs, rfl, rfl⟩

/-- C4: for every failure mode of reading the backing document — file
absent, malformed content, or any other read error — the load returns the
empty sequence, and with a corrupted document `GET /items` returns 200
with the empty array. -/
theorem readData_failure_modes_empty :
    readData DiskState.absent = [] ∧ readData DiskState.corrupt = [] ∧
    readData DiskState.readError = [] ∧
    getItems DiskState.corrupt = Response.mk 200 (JsValue.arr []) :=
  ⟨rfl, rfl, rfl, rfl⟩

/-- C5 counterexample: the claim states that a lookup of an identifier
that is not the id of any item returns 404.  In the collection whose only
item has the numeric id `5`, the path segment `"5x"` is not the id of any
item, yet `parseInt "5x"` yields `5` and the route returns 200 with that
item. -/
theorem getById_absent_id_200_counterexample :
    getField itemNum5 "id" = some (JsValue.num 5) ∧
    some (JsValue.num 5) ≠ some (JsValue.str "5x") ∧
    getItemById "5x" (DiskState.stored [itemNum5]) = Response.mk 200 itemNum5 ∧
    (200 : Nat) ≠ 404 :=
  ⟨rfl, fun h => JsValue.noConfusion (Option.some.inj h), rfl, by decide⟩

/-- C5 as amended: for every collection and every path segment whose
`parseInt` value strictly matches no stored id — in particular every
segment absent from a collection of string ids — the route returns 404
with exactly the body `message : Item not found`. -/
theorem getById_no_strict_match_404 (seg : String) (d : DiskState)
    (h : ∀ item ∈ readData d, matchesId (parseIntJs seg) item = false) :
    getItemById seg d = Response.mk 404 notFoundBody := by
  have hn : (readData d).find? (matchesId (parseIntJs seg)) = none :=
    List.find?_eq_none.mpr (fun x hx => by rw [h x hx]; exact Bool.false_ne_true)
  simp only [getItemById]
  rw [hn]

/-- Witness for the amended C5 at a concrete input: the segment `"nope"`
matches nothing in the collection holding `itemNum5`, and the response is
404 with the exact message body. -/
theorem getById_no_strict_match_404_witness :
    getItemById "nope" (DiskState.stored [itemNum5]) = Response.mk 404 notFoundBody := by
  apply getById_no_strict_match_404
  intro item hitem
  have he : item = itemNum5 := by simpa [readData] using hitem
  subst he
  rfl

/-- C6: a GET of the collection immediately after a successful POST
returns the previously stored items, in their prior order, followed by
the newly created item as the last element. -/
theorem post_then_get_appends_last (body : List (String × JsValue))
    (freshId : String) (d : DiskState) :
    ∃ d' item,
      postItems body freshId d WriteResult.ok = Except.ok (d', Response.mk 201 item) ∧
      getItems d' = Response.mk 200 (JsValue.arr (readData d ++ [item])) :=
  ⟨DiskState.stored (readData d ++ [JsValue.obj (setFields body "id" (JsValue.str freshId))]),
   JsValue.obj (setFields body "id" (JsValue.str freshId)), rfl, rfl⟩

/-- C7: when the collection decomposes as a non-matching part, a matching
item, and a remainder containing at least one further matching item, the
route returns the first matching item in collection order. -/
theorem getById_returns_first_match (seg : String) (d : DiskState)
    (pre : List JsValue) (item : JsValue) (rest : List JsValue)
    (hd : readData d = pre ++ item :: rest)
    (hpre : ∀ x ∈ pre, matchesId (parseIntJs seg) x = false)
    (hitem : matchesId (parseIntJs seg) item = true)
    (_hdup : ∃ x ∈ rest, matchesId (parseIntJs seg) x = true) :
    getItemById seg d = Response.mk 200 item := by
  have hn : pre.find? (matchesId (parseIntJs seg)) = none :=
    List.find?_eq_none.mpr (fun x hx => by rw [hpre x hx]; exact Bool.false_ne_true)
  have hf : (readData d).find? (matchesId (parseIntJs seg)) = some item := by
    rw [hd, List.find?_append, hn, Option.none_or, List.find?_cons_of_pos _ hitem]
  simp only [getItemById]
  rw [hf]

/-- Witness for C7 at a concrete input: two items share the numeric id
`1`; the lookup of `"1"` returns the first of them. -/
theorem getById_returns_first_match_witness :
    getItemById "1" (DiskState.stored [itemDupA, itemDupB]) = Response.mk 200 itemDupA := by
  refine getById_returns_first_match "1" (DiskState.stored [itemDupA, itemDupB])
    [] itemDupA [itemDupB] rfl ?_ ?_ ?_
  · intro x hx
    cases hx
  · rfl
  · exact ⟨itemDupB, by simp, rfl⟩

/-- C8: when the underlying write fails during the save of a create
request, the failure is caught nowhere in the create path: the save
propagates it, the handler produces no 201 response at all, and the
client receives the generic server-error response with no structured
error body. -/
theorem post_write_failure_propagates (body : List (String × JsValue))
    (freshId : String) (d : DiskState) :
    writeData (readData d ++ [JsValue.obj (setFields body "id" (JsValue.str freshId))])
      WriteResult.ioError = Except.error () ∧
    postItems body freshId d WriteResult.ioError = Except.error () ∧
    handlePost body freshId d WriteResult.ioError = frameworkFailureResponse ∧
    frameworkFailureResponse.status = 500 ∧
    frameworkFailureResponse.body = JsValue.str "Internal Server Error" :=
  ⟨rfl, rfl, rfl, rfl, rfl⟩

/-- C9: every field of the POSTed body other than `id` is stored and
echoed unchanged — as a record, the created item agrees with the client
body on every key except `id`, which holds the generated identifier — and
the persisted record is the echoed record itself. -/
theorem post_preserves_other_fields (body : List (String × JsValue))
    (freshId : String) (d : DiskState) :
    ∃ d' item,
      postItems body freshId d WriteResult.ok = Except.ok (d', Response.mk 201 item) ∧
      getField item "id" = some (JsValue.str freshId) ∧
      (∀ k, k ≠ "id" → getField item k = lookupField body k) ∧
      readData d' = readData d ++ [item] := by
  refine ⟨_, _, rfl, lookupField_setFields_self body "id" (JsValue.str freshId), ?_, rfl⟩
  intro k hk
  exact lookupField_setFields_ne body "id" (JsValue.str freshId) k hk

/-- Witness for C9 at a concrete input: the extra fields `name` and `qty`
of the body survive verbatim in the echoed item. -/
theorem post_preserves_other_fields_witness :
    ∃ d' item,
      postItems [("name", JsValue.str "Widget"), ("qty", JsValue.num 3)] "fresh-2"
        DiskState.absent WriteResult.ok = Except.ok (d', Response.mk 201 item) ∧
      getField item "name" = some (JsValue.str "Widget") ∧
      getField item "qty" = some (JsValue.num 3) := by
  obtain ⟨d', item, h1, _, h3, _⟩ :=
    post_preserves_other_fields [("name", JsValue.str "Widget"), ("qty", JsValue.num 3)]
      "fresh-2" DiskState.absent
  refine ⟨d', item, h1, ?_, ?_⟩
  · rw [h3 "name" (by decide)]
    rfl
  · rw [h3 "qty" (by decide)]
    rfl

/-- C10: the get-by-id route parses the path segment numerically and
compares with strict equality, so a 200 response can only carry an item
whose stored `id` is the number the segment parses to; and over a
collection in which every stored `id` is a string — the shape of every
server-generated identifier — every lookup returns 404. -/
theorem getById_strict_numeric_only (seg : String) (d : DiskState) :
    (∀ item, getItemById seg d = Response.mk 200 item →
        ∃ n, parseIntJs seg = some n ∧ getField item "id" = some (JsValue.num n)) ∧
    ((∀ item ∈ readData d, ∀ v, getField item "id" = some v → ∃ s, v = JsValue.str s) →
        getItemById seg d = Response.mk 404 notFoundBody) := by
  constructor
  · intro item hresp
    cases hf : (readData d).find? (matchesId (parseIntJs seg)) with
    | none =>
        simp only [getItemById] at hresp
        rw [hf] at hresp
        injection hresp with h1 h2
        exact absurd h1 (by decide)
    | some it =>
        simp only [getItemById] at hresp
        rw [hf] at hresp
        have he : it = item := congrArg Response.body hresp
        subst he
        exact matchesId_eq_true (List.find?_some hf)
  · intro hstr
    have hn : (readData d).find? (matchesId (parseIntJs seg)) = none :=
      List.find?_eq_none.mpr (fun x hx hmx => by
        obtain ⟨n, _, hid⟩ := matchesId_eq_true hmx
        obtain ⟨s, hs⟩ := hstr x hx _ hid
        exact JsValue.noConfusion hs)
    simp only [getItemById]
    rw [hn]

/-- Witness for C10 at a concrete input: the lookup of the very token
`"fresh-9"` stored as the string id of the only item still returns 404. -/
theorem getById_strict_numeric_only_witness :
    getItemById "fresh-9" (DiskState.stored [JsValue.obj [("id", JsValue.str "fresh-9")]])
      = Response.mk 404 notFoundBody := by
  refine (getById_strict_numeric_only "fresh-9"
    (DiskState.stored [JsValue.obj [("id", JsValue.str "fresh-9")]])).2 ?_
  intro item hmem v hv
  have he : item = JsValue.obj [("id", JsValue.str "fresh-9")] := by
    simpa [readData] using hmem
  subst he
  rw [show getField (JsValue.obj [("id", JsValue.str "fresh-9")]) "id"
        = some (JsValue.str "fresh-9") from rfl] at hv
  exact ⟨"fresh-9", (Option.some.inj hv).symm⟩
